import Mathlib

/-!
Verification of the measurement-replay / PCR-policy core of pcr-oracle.

The definitions below are a shallow embedding of the C sources under
`src/`: `eventlog.c` (TCG event-log reader and IPL/grub event parsing and
rehashing), `sd-boot.c` (boot-entry loader, version comparison and the
systemd signed-policy JSON upsert) and `pcr-policy.c` (sealing control
flow).  Machine integers are modelled as `Nat` with explicit bounds where
they matter; byte streams are `List Nat`; C functions that can fail
(`fatal`, NULL returns) become `Option`-valued functions.  External
collaborators that are not part of this repository's core sources (the
TSS2 ESYS stack, OpenSSL digests, libc file I/O) are modelled as explicit
parameters or boolean outcomes.
-/

namespace PcrOracle

/-! ### Little-endian byte codec (bufparser / __read_* helpers) -/

/-- Serialize a 32-bit value little-endian (the inverse of `__read_u32le`). -/
def u32le (x : Nat) : List Nat :=
  [x % 256, x / 256 % 256, x / 65536 % 256, x / 16777216 % 256]

/-- Serialize a 16-bit value little-endian. -/
def u16le (x : Nat) : List Nat :=
  [x % 256, x / 256 % 256]

/-- `__read_u32le`: consume four bytes, little-endian.  `none` models the
`fatal()` exit on a short read. -/
def readU32le : List Nat → Option (Nat × List Nat)
  | b0 :: b1 :: b2 :: b3 :: rest =>
      some (b0 + 256 * b1 + 65536 * b2 + 16777216 * b3, rest)
  | _ => none

/-- `__read_u16le`: consume two bytes, little-endian. -/
def readU16le : List Nat → Option (Nat × List Nat)
  | b0 :: b1 :: rest => some (b0 + 256 * b1, rest)
  | _ => none

/-- `buffer_get_u8` / single-byte read. -/
def readU8 : List Nat → Option (Nat × List Nat)
  | b :: rest => some (b, rest)
  | _ => none

/-- `__read_exactly`: consume exactly `n` bytes; a short read is fatal. -/
def takeExact (n : Nat) (s : List Nat) : Option (List Nat × List Nat) :=
  if n ≤ s.length then some (s.take n, s.drop n) else none

/-! ### eventlog.c: the TCG event-log reader

The reader consumes a byte stream (`List Nat`).  Its result type is
`Option (Option (event × state × rest))`: the outer `none` is the `fatal()`
exit, `some none` is the clean end of the log (EOF at the leading
`pcr_index` field), and `some (some …)` is a delivered event together with
the updated reader state and the unread remainder of the stream. -/

/-- `TPM2_ALG_LAST` from `tss2_tpm2_types.h`: `0x0044` (`TPM2_ALG_ECB`). -/
def TPM2_ALG_LAST : Nat := 68

/-- `TPM_EVENT_LOG_MAX_ALGOS` from eventlog.c: size of the per-reader
algorithm array. -/
def TPM_EVENT_LOG_MAX_ALGOS : Nat := 64

/-- Modelled from the spec: the digest registry (component A; `digest.c` is
not under `src/`).  `digest_by_tpm_alg` maps a TCG algorithm id to the
digest size of a built-in hash algorithm; ids that are not digest
algorithms (such as the symmetric-cipher mode `TPM2_ALG_ECB = 0x44`) are
absent. -/
def digest_by_tpm_alg : Nat → Option Nat
  | 4 => some 20
  | 11 => some 32
  | 12 => some 48
  | 13 => some 64
  | _ => none

/-- `TPM2_ALG_SHA1`. -/
def TPM2_ALG_SHA1 : Nat := 4

/-- The `struct tpm_event_log_tcg2_info` parsed from a "Spec ID Event03"
header.  The algorithm array is modelled as an association list of
(algo_id, declared digest size); a store prepends, so a later store for the
same id shadows the earlier one exactly as an array overwrite does. -/
structure Tcg2Info where
  platform_class : Nat
  spec_version_minor : Nat
  spec_version_major : Nat
  spec_errata : Nat
  uintn_size : Nat
  algorithms : List (Nat × Nat)
deriving DecidableEq

/-- The zeroed `tcg2_info` of a freshly calloc'ed reader. -/
def tcg2InfoInit : Tcg2Info := ⟨0, 0, 0, 0, 0, []⟩

/-- `struct tpm_event_log_reader`: current TPM version, count of delivered
events, the header info and the recorded PCR 0 startup locality. -/
structure ReaderState where
  tpm_version : Nat
  event_count : Nat
  tcg2_info : Tcg2Info
  pcr0_locality : Option Nat
deriving DecidableEq

/-- `event_log_open`: `tpm_version = 1`, everything else zeroed. -/
def readerInit : ReaderState := ⟨1, 0, tcg2InfoInit, none⟩

/-- Modelled from the spec: `__digest_by_tpm_alg` (`digest.c` is not under
`src/`) reads slot `algo_id` of the `TPM_EVENT_LOG_MAX_ALGOS`-entry
algorithm array; an id outside the array or an empty slot (digest size 0)
is absent. -/
def lookup_declared_algo (tbl : List (Nat × Nat)) (id : Nat) : Option Nat :=
  if id < TPM_EVENT_LOG_MAX_ALGOS then
    match tbl.find? (fun p => p.1 == id) with
    | some p => if p.2 = 0 then none else some p.2
    | none => none
  else none

/-- `event_log_get_algo_info`: a built-in algorithm, else one declared by the
Spec ID header. -/
def event_log_get_algo_info (st : ReaderState) (id : Nat) : Option Nat :=
  match digest_by_tpm_alg id with
  | some sz => some sz
  | none => lookup_declared_algo st.tcg2_info.algorithms id

/-- `event_log_read_digest`: fatal (`none`) for an unknown algorithm or a
short read; otherwise the digest `(algo_id, bytes)` and the remaining
stream. -/
def event_log_read_digest (st : ReaderState) (id : Nat) (s : List Nat) :
    Option ((Nat × List Nat) × List Nat) :=
  match event_log_get_algo_info st id with
  | none => none
  | some sz =>
    match takeExact sz s with
    | none => none
    | some (d, r) => some ((id, d), r)

/-- `event_log_read_pcrs_tpm1`: exactly one SHA-1 digest. -/
def event_log_read_pcrs_tpm1 (st : ReaderState) (s : List Nat) :
    Option (List (Nat × List Nat) × List Nat) :=
  match event_log_read_digest st TPM2_ALG_SHA1 s with
  | none => none
  | some (d, r) => some ([d], r)

/-- The digest loop of `event_log_read_pcrs_tpm2`: `count` pairs of a u16
algorithm id and that algorithm's digest bytes. -/
def read_digests_v2 (st : ReaderState) : Nat → List Nat → Option (List (Nat × List Nat) × List Nat)
  | 0, s => some ([], s)
  | n + 1, s =>
    match readU16le s with
    | none => none
    | some (id, s1) =>
      match event_log_read_digest st id s1 with
      | none => none
      | some (d, s2) =>
        match read_digests_v2 st n s2 with
        | none => none
        | some (ds, s3) => some (d :: ds, s3)

/-- `event_log_read_pcrs_tpm2`: u32 digest count (at most 32, per
`event_log_resize_pcrs`), then the digests. -/
def event_log_read_pcrs_tpm2 (st : ReaderState) (s : List Nat) :
    Option (List (Nat × List Nat) × List Nat) :=
  match readU32le s with
  | none => none
  | some (count, s1) =>
    if 32 < count then none
    else read_digests_v2 st count s1

/-- The 16-byte signature "Spec ID Event03" including its NUL. -/
def specIdSignature : List Nat := ("Spec ID Event03".toList.map Char.toNat) ++ [0]

/-- The 16-byte signature "StartupLocality" including its NUL. -/
def startupLocalitySignature : List Nat := ("StartupLocality".toList.map Char.toNat) ++ [0]

/-- `TPM2_EVENT_NO_ACTION` (`EV_NO_ACTION`). -/
def TPM2_EVENT_NO_ACTION : Nat := 3

/-- One store into the header's algorithm array
(`__tpm_event_parse_tcg2_info` loop body): ids above `TPM2_ALG_LAST` are
skipped; a non-built-in id records its declared size (built-in ids only
warn on a size conflict, nothing is stored). -/
def tcg2_algo_store (tbl : List (Nat × Nat)) (id sz : Nat) : List (Nat × Nat) :=
  if TPM2_ALG_LAST < id then tbl
  else
    match digest_by_tpm_alg id with
    | none => (id, sz) :: tbl
    | some _ => tbl

/-- The algorithm-table loop of `__tpm_event_parse_tcg2_info`. -/
def parse_algo_loop : Nat → List Nat → List (Nat × Nat) → Option (List (Nat × Nat))
  | 0, _, acc => some acc
  | n + 1, b, acc =>
    match readU16le b with
    | none => none
    | some (id, b1) =>
      match readU16le b1 with
      | none => none
      | some (sz, b2) => parse_algo_loop n b2 (tcg2_algo_store acc id sz)

/-- `__tpm_event_parse_tcg2_info`: skip the 16-byte signature, then platform
class (u32le), minor, major, errata, uintn size (u8 each), the algorithm
count (u32le) and the algorithm table. -/
def __tpm_event_parse_tcg2_info (body : List Nat) : Option Tcg2Info :=
  let b := body.drop 16
  match readU32le b with
  | none => none
  | some (pc, b1) =>
    match readU8 b1 with
    | none => none
    | some (minor, b2) =>
      match readU8 b2 with
      | none => none
      | some (major, b3) =>
        match readU8 b3 with
        | none => none
        | some (errata, b4) =>
          match readU8 b4 with
          | none => none
          | some (uintn, b5) =>
            match readU32le b5 with
            | none => none
            | some (count, b6) =>
              match parse_algo_loop count b6 [] with
              | none => none
              | some tbl => some ⟨pc, minor, major, errata, uintn, tbl⟩

/-- One raw record before the header/locality special-casing. -/
structure RawRecord where
  pcr_index : Nat
  event_type : Nat
  digests : List (Nat × List Nat)
  event_data : List Nat
deriving DecidableEq

/-- The fallible part of reading one record: pcr index, event type, digests
per the current TPM version, event size (fatal above 1 MiB) and body. -/
def readRawRecordBody (st : ReaderState) (s : List Nat) : Option (RawRecord × List Nat) :=
  match readU32le s with
  | none => none
  | some (pcr, s1) =>
    match readU32le s1 with
    | none => none
    | some (ty, s2) =>
      match (if st.tpm_version = 1 then event_log_read_pcrs_tpm1 st s2
             else event_log_read_pcrs_tpm2 st s2) with
      | none => none
      | some (digs, s3) =>
        match readU32le s3 with
        | none => none
        | some (esz, s4) =>
          if 1048576 < esz then none
          else
            match takeExact esz s4 with
            | none => none
            | some (body, s5) => some (⟨pcr, ty, digs, body⟩, s5)

/-- Reading one record: EOF is accepted only when the stream is empty at the
leading `pcr_index` field (`__read_u32le_or_eof`). -/
def readRawRecord (st : ReaderState) (s : List Nat) : Option (Option (RawRecord × List Nat)) :=
  match s with
  | [] => some none
  | _ :: _ =>
    match readRawRecordBody st s with
    | none => none
    | some rs => some (some rs)

/-- One delivered event (`tpm_event_t`): pcr index, event type, digest list,
body and the running event index. -/
structure TpmEvent where
  pcr_index : Nat
  event_type : Nat
  digests : List (Nat × List Nat)
  event_data : List Nat
  event_index : Nat
deriving DecidableEq

/-- The body of `event_log_read_next` with fuel for the `goto again` loop.
Each iteration consumes at least twelve bytes of the stream, so
`s.length + 1` units of fuel always suffice (`event_log_read_next_go_congr`);
the fuel is only a termination device, not part of the modelled code. -/
def event_log_read_next_go : Nat → ReaderState → List Nat →
    Option (Option (TpmEvent × ReaderState × List Nat))
  | 0, _, _ => none
  | f + 1, st, s =>
    match readRawRecord st s with
    | none => none
    | some none => some none
    | some (some (r, s5)) =>
      if r.event_type = TPM2_EVENT_NO_ACTION ∧ r.pcr_index = 0 ∧ st.event_count = 0 ∧
          16 ≤ r.event_data.length then
        if r.event_data.take 16 = specIdSignature then
          match __tpm_event_parse_tcg2_info r.event_data with
          | none => none
          | some info =>
            event_log_read_next_go f
              { st with tpm_version := info.spec_version_major, tcg2_info := info } s5
        else if r.event_data.take 16 = startupLocalitySignature ∧ r.event_data.length = 17 then
          event_log_read_next_go f { st with pcr0_locality := some (r.event_data.getD 16 0) } s5
        else
          some (some (⟨r.pcr_index, r.event_type, r.digests, r.event_data, st.event_count⟩,
            { st with event_count := st.event_count + 1 }, s5))
      else
        some (some (⟨r.pcr_index, r.event_type, r.digests, r.event_data, st.event_count⟩,
          { st with event_count := st.event_count + 1 }, s5))

/-- `event_log_read_next`: read records, consuming (not delivering) a
leading "Spec ID Event03" header — which re-parses the reader's version and
algorithm table — and a "StartupLocality" record, both only while no event
has been delivered yet (`event_count == 0`). -/
def event_log_read_next (st : ReaderState) (s : List Nat) :
    Option (Option (TpmEvent × ReaderState × List Nat)) :=
  event_log_read_next_go (s.length + 1) st s

/-- `event_log_get_locality`: only PCR 0 can carry a startup locality. -/
def event_log_get_locality (st : ReaderState) (pcr_index : Nat) : Option Nat :=
  if pcr_index ≠ 0 then none else st.pcr0_locality

/-! ### sd-boot.c: version comparison (`vercmp`)

The embedding follows `sd-boot.c` lines 177-264.  C strings become
`List Char`; the NUL terminator is the end of the list, and dereferencing
the terminator yields the NUL character (`chHead [] = 0`). -/

/-- `SDB_LINE_MAX` (from `sd-boot.h`, not under `src/`): size of the scratch
line buffers; only used by `natoi` to cap the copied digit run. -/
def SDB_LINE_MAX : Nat := 512

/-- Dereference a C string pointer: the current character, or NUL at the end. -/
def chHead (l : List Char) : Nat :=
  match l with
  | [] => 0
  | c :: _ => c.toNat

/-- `cmp(int a, int b) { return a - b; }` -/
def cmp (a b : Int) : Int := a - b

/-- A C boolean expression used as an `int` operand of `cmp`. -/
def b2i (b : Bool) : Int := if b then 1 else 0

/-- `isvalid`: alphanumeric or one of the separators `~ - ^ .`. -/
def isvalid (a : Char) : Bool :=
  a.isAlphanum || a = '~' || a = '-' || a = '^' || a = '.'

/-- `atoi` on a buffer holding a digit run: the numeric value of the leading
digits (overflow of the C `int` is not modelled; all uses here are tiny). -/
def atoi (l : List Char) : Int :=
  (l.takeWhile Char.isDigit).foldl (fun acc c => acc * 10 + ((c.toNat : Int) - 48)) 0

/-- `natoi(a, n)`: copy at most `MIN(SDB_LINE_MAX, n)` characters and `atoi`. -/
def natoi (a : List Char) (n : Nat) : Int :=
  atoi (a.take (min SDB_LINE_MAX n))

/-- `strncmp` over at most `n` characters (sign-result model; characters are
compared by code point, and a NUL ends the comparison). -/
def strncmp : List Char → List Char → Nat → Int
  | _, _, 0 => 0
  | a, b, n + 1 =>
    if chHead a = chHead b then
      if chHead a = 0 then 0 else strncmp a.tail b.tail n
    else cmp (Int.ofNat (chHead a)) (Int.ofNat (chHead b))

/-- One separator step of `vercmp`'s `for (i = 0; i < strlen(sep); i++)` loop:
either an early `return r` (`Sum.inl`) or the advanced pair of cursors. -/
def sepStep (s : Char) (ab : List Char × List Char) : Sum Int (List Char × List Char) :=
  if chHead ab.1 = s.toNat || chHead ab.2 = s.toNat then
    let r := cmp (b2i (chHead ab.1 ≠ s.toNat)) (b2i (chHead ab.2 ≠ s.toNat))
    if r ≠ 0 then Sum.inl r else Sum.inr (ab.1.tail, ab.2.tail)
  else Sum.inr ab

/-- The separator loop of `vercmp` over `sep = "~-^."`. -/
def sepLoop : List Char → List Char × List Char → Sum Int (List Char × List Char)
  | [], ab => Sum.inr ab
  | s :: ss, ab =>
    match sepStep s ab with
    | Sum.inl r => Sum.inl r
    | Sum.inr ab2 => sepLoop ss ab2

/-- The body of `vercmp`'s `for(;;)` loop, with fuel for the outer iteration
(every iteration that does not return consumes at least one character, so
`|a| + |b| + 1` units of fuel always suffice). -/
def vercmpGo : Nat → List Char → List Char → Int
  | 0, _, _ => 0
  | fuel + 1, a0, b0 =>
    let a := a0.dropWhile (fun c => !isvalid c)
    let b := b0.dropWhile (fun c => !isvalid c)
    if a.isEmpty || b.isEmpty then
      cmp (Int.ofNat (chHead a)) (Int.ofNat (chHead b))
    else
      match sepLoop ['~', '-', '^', '.'] (a, b) with
      | Sum.inl r => r
      | Sum.inr ab =>
        let a := ab.1
        let b := ab.2
        if (Char.ofNat (chHead a)).isDigit || (Char.ofNat (chHead b)).isDigit then
          let ra := a.takeWhile Char.isDigit
          let rb := b.takeWhile Char.isDigit
          let r1 := cmp (b2i (!ra.isEmpty)) (b2i (!rb.isEmpty))
          if r1 ≠ 0 then r1
          else
            let r2 := cmp (natoi a ra.length) (natoi b rb.length)
            if r2 ≠ 0 then r2
            else vercmpGo fuel (a.drop ra.length) (b.drop rb.length)
        else
          let ra := a.takeWhile Char.isAlpha
          let rb := b.takeWhile Char.isAlpha
          let r1 := cmp (strncmp a b (min ra.length rb.length)) 0
          if r1 ≠ 0 then r1
          else
            let r2 := cmp (Int.ofNat ra.length) (Int.ofNat rb.length)
            if r2 ≠ 0 then r2
            else vercmpGo fuel (a.drop ra.length) (b.drop rb.length)

/-- `vercmp` from sd-boot.c: the UAPI-style version comparison. -/
def vercmp (a b : String) : Int :=
  vercmpGo (a.length + b.length + 1) a.toList b.toList

/-! ### sd-boot.c: token id and entry enumeration -/

/-- `strncmp(p, s, strlen(p)) == 0`: `p` is a prefix of `s` (list-based so
that the kernel can evaluate it). -/
def starts_with (p s : String) : Bool := p.toList.isPrefixOf s.toList

/-- `s` ends with suffix `p` (list-based). -/
def ends_with (p s : String) : Bool := p.toList.isSuffixOf s.toList

/-- `exists_efi_dir`: NULL path yields false, otherwise ask the directory
oracle `ex` (libc `opendir` on `/boot/efi/<path>` is a collaborator). -/
def exists_efi_dir (ex : String → Bool) : Option String → Bool
  | none => false
  | some p => ex p

/-- `get_token_id` from sd-boot.c.  `entry_token`, `os_id`, `image_id`,
`machine_id` are the contents of `/etc/kernel/entry-token`,
`/etc/os-release:ID`, `/etc/os-release:IMAGE_ID` and `/etc/machine-id`
(`none` when the file or key is unreadable); `ex` answers whether
`/boot/efi/<name>/` exists.  Note the source assigns `token_id = id` (not
`image_id`) in the `exists_efi_dir(image_id)` branch, and never checks a
directory for the entry-token candidate. -/
def get_token_id (entry_token os_id image_id machine_id : Option String)
    (ex : String → Bool) : Option String :=
  match machine_id with
  | none => none
  | some mid =>
    let t0 := entry_token
    let t1 := if t0.isNone && exists_efi_dir ex os_id then os_id else t0
    let t2 := if t1.isNone && exists_efi_dir ex image_id then os_id else t1
    if t2.isNone && ex mid then some mid else t2

/-- Modelled from the spec: the token-id rule as the claim states it — the
first candidate, in the order entry-token, ID, IMAGE_ID, machine-id, whose
directory `/boot/efi/<token>/` exists. -/
def get_token_id_claimed (entry_token os_id image_id machine_id : Option String)
    (ex : String → Bool) : Option String :=
  if exists_efi_dir ex entry_token then entry_token
  else if exists_efi_dir ex os_id then os_id
  else if exists_efi_dir ex image_id then image_id
  else if exists_efi_dir ex machine_id then machine_id
  else none

/-- The amended token-id rule, describing what the source actually computes:
machine-id must be readable; a readable entry-token wins unconditionally;
otherwise ID when `/boot/efi/<ID>/` exists; otherwise ID again (the source's
slip) when ID is present and `/boot/efi/<IMAGE_ID>/` exists; otherwise
machine-id when its directory exists. -/
def get_token_id_amended (entry_token os_id image_id machine_id : Option String)
    (ex : String → Bool) : Option String :=
  match machine_id with
  | none => none
  | some m =>
    match entry_token with
    | some t => some t
    | none =>
      if exists_efi_dir ex os_id then os_id
      else if os_id.isSome && exists_efi_dir ex image_id then os_id
      else if ex m then some m
      else none

/-- The retention test `sdb_get_entry_list` applies to a directory entry:
`strncmp(token_id, d_name, strlen(token_id)) == 0`, i.e. a pure
starts-with test. -/
def sdb_entry_keeps (token name : String) : Bool :=
  starts_with token name

/-- Modelled from the spec: the retention test the claim states — a `.conf`
file whose basename starts with the token. -/
def sdb_entry_keeps_claimed (token name : String) : Bool :=
  starts_with token name && ends_with ".conf" name

/-! ### sd-boot.c: read_entry value extraction (claim C10) -/

/-- Which destination field, if any, a `.conf` line is routed to by
`read_entry`'s `strncmp` chain. -/
def read_entry_key_dest (line : String) : Option String :=
  if starts_with "sort-key" line then some "sort_key"
  else if starts_with "machine-id" line then some "machine_id"
  else if starts_with "version" line then some "version"
  else if starts_with "options" line then some "options"
  else if starts_with "linux" line then some "image"
  else if starts_with "initrd" line then some "initrd"
  else none

/-- The scan `while (line[++index] != ' ');` of `read_entry`: the index of the
first space at position ≥ 1 within the NUL-terminated line.  `none` means the
loop does not stop inside the line: the C code keeps reading past the
terminator, out of the initialized part of the buffer. -/
def read_entry_first_space (line : List Char) : Option Nat :=
  (List.range line.length).find? (fun i => decide (1 ≤ i) && decide (line.getD i ' ' = ' '))

/-- The number of bytes `read_entry` passes to `strncpy`:
`strlen(&line[index]) - 1` computed in `size_t`, after skipping the first
space run.  `none` when the first scan already left the line. -/
def read_entry_copy_len (line : List Char) : Option Nat :=
  match read_entry_first_space line with
  | none => none
  | some i =>
    let j := i + 1 + ((line.drop (i + 1)).takeWhile (fun c => c = ' ')).length
    let value := line.drop j
    some (if value.length = 0 then 2 ^ 64 - 1 else value.length - 1)

/-! ### sd-boot.c: systemd signed-policy JSON upsert (claim C8) -/

/-- One entry of a per-algorithm policy array; `none` fields model absent
JSON members (entries without a string `"pol"` are skipped by the search). -/
structure SdbPolicyEntry where
  pol : Option String
  pcrs : Option (List Nat)
  pfkp : Option String
  sig : Option String
deriving DecidableEq

/-- `strcasecmp(a, b) == 0`. -/
def strcasecmp_eq (a b : String) : Bool := a.toLower == b.toLower

/-- The match test of `sdb_policy_find_or_create_entry`: the entry has a
string `"pol"` member equal, case-insensitively, to the formatted policy. -/
def entry_pol_matches (e : SdbPolicyEntry) (fp : String) : Bool :=
  match e.pol with
  | none => false
  | some s => strcasecmp_eq s fp

/-- `sdb_policy_entry_set_pcr_mask`'s loop: it starts at `pcr_index = 1`, so
bit `k` of the mask is rendered as the integer `k + 1`. -/
def set_pcr_mask_go (idx mask : Nat) : List Nat :=
  if h : mask = 0 then []
  else (if mask % 2 = 1 then [idx] else []) ++ set_pcr_mask_go (idx + 1) (mask / 2)
termination_by mask
decreasing_by exact Nat.div_lt_self (Nat.pos_of_ne_zero h) (by omega)

/-- The `"pcrs"` array `sdb_policy_entry_set_pcr_mask` writes for a mask. -/
def pcrs_of_mask (mask : Nat) : List Nat := set_pcr_mask_go 1 mask

/-- `sdb_policy_find_or_create_entry` followed by the member updates of
`sdb_policy_file_add_entry`, acting on one algorithm bank: overwrite the
`pcrs`/`pfkp`/`sig` members of the first entry whose `"pol"` matches, or
append a fresh entry carrying `pol = fp` and fill it. -/
def bank_add_entry (fp : String) (pc : List Nat) (pk sg : String) :
    List SdbPolicyEntry → List SdbPolicyEntry
  | [] => [⟨some fp, some pc, some pk, some sg⟩]
  | e :: rest =>
    if entry_pol_matches e fp then
      ⟨e.pol, some pc, some pk, some sg⟩ :: rest
    else e :: bank_add_entry fp pc pk sg rest

/-- The top-level JSON document as an ordered key/array association list;
`json_object_object_get` returns the first binding, and a missing key is
created at the end (`json_object_object_add`). -/
def doc_add_entry (algo fp : String) (pc : List Nat) (pk sg : String) :
    List (String × List SdbPolicyEntry) → List (String × List SdbPolicyEntry)
  | [] => [(algo, bank_add_entry fp pc pk sg [])]
  | (k, b) :: rest =>
    if k = algo then (k, bank_add_entry fp pc pk sg b) :: rest
    else (k, b) :: doc_add_entry algo fp pc pk sg rest

/-- `sdb_policy_file_add_entry` on a well-formed document.  `hexF` and `b64F`
are the hex and base64 renderers (`print_hex_string` / `print_base64_value`
from util.c, a collaborator outside the core sources). -/
def sdb_policy_file_add_entry (doc : List (String × List SdbPolicyEntry))
    (algo : String) (mask : Nat) (fngp pol sg : List Nat)
    (hexF b64F : List Nat → String) : List (String × List SdbPolicyEntry) :=
  doc_add_entry algo (hexF pol) (pcrs_of_mask mask) (hexF fngp) (b64F sg) doc

/-! ### Synthetic log serialization (for stating reader theorems) -/

/-- The fields a synthetic "Spec ID Event03" header declares. -/
structure SpecIdHeader where
  platform_class : Nat
  spec_version_minor : Nat
  spec_version_major : Nat
  spec_errata : Nat
  uintn_size : Nat
  algo_table : List (Nat × Nat)
deriving DecidableEq

/-- Serialization of a header's algorithm table: `(u16 id, u16 size)*`. -/
def algoTableBytes : List (Nat × Nat) → List Nat
  | [] => []
  | p :: ps => u16le p.1 ++ (u16le p.2 ++ algoTableBytes ps)

/-- Serialization of the body of a "Spec ID Event03" record. -/
def mkSpecIdBody (h : SpecIdHeader) : List Nat :=
  specIdSignature ++ u32le h.platform_class ++
    [h.spec_version_minor, h.spec_version_major, h.spec_errata, h.uintn_size] ++
    u32le h.algo_table.length ++ algoTableBytes h.algo_table

/-- The fold of `tcg2_algo_store` the parse loop performs over a table. -/
def algoStoreFold : List (Nat × Nat) → List (Nat × Nat) → List (Nat × Nat)
  | acc, [] => acc
  | acc, p :: ps => algoStoreFold (tcg2_algo_store acc p.1 p.2) ps

/-- The `Tcg2Info` a serialized header denotes. -/
def tcg2InfoOfHeader (h : SpecIdHeader) : Tcg2Info :=
  ⟨h.platform_class, h.spec_version_minor, h.spec_version_major, h.spec_errata,
   h.uintn_size, algoStoreFold [] h.algo_table⟩

/-- A record in legacy (v1) form: one bare SHA-1 digest. -/
def mkRecordV1 (pcr ty : Nat) (dig body : List Nat) : List Nat :=
  u32le pcr ++ u32le ty ++ dig ++ u32le body.length ++ body

/-- A record in Crypto-Agile (v2) form with a single digest. -/
def mkRecordV2 (pcr ty aid : Nat) (dig body : List Nat) : List Nat :=
  u32le pcr ++ u32le ty ++ u32le 1 ++ u16le aid ++ dig ++ u32le body.length ++ body

/-- A "Spec ID Event03" header record as it appears at the top of a log that
is still being read in v1 form: PCR 0, `NO_ACTION`, a 20-byte digest. -/
def mkHeaderRecord (h : SpecIdHeader) (dig : List Nat) : List Nat :=
  mkRecordV1 0 TPM2_EVENT_NO_ACTION dig (mkSpecIdBody h)

/-- A "StartupLocality" record in v1 form: body is the signature plus the
locality byte. -/
def mkLocalityRecordV1 (dig : List Nat) (b : Nat) : List Nat :=
  mkRecordV1 0 TPM2_EVENT_NO_ACTION dig (startupLocalitySignature ++ [b])

/-! ### eventlog.c: grub command events (PCR 8 IPL, claims C3) -/

/-- `grub_file_t`: optional device (the part between parentheses) and path;
`path = none` models the NULL pointer of a never-parsed file. -/
structure GrubFile where
  device : Option String
  path : Option String
deriving DecidableEq

/-- Split a character list at the first `)` — `strchr(copy, ')')`. -/
def splitParen : List Char → Option (List Char × List Char)
  | [] => none
  | c :: rest =>
    if c = ')' then some ([], rest)
    else (splitParen rest).map (fun p => (c :: p.1, p.2))

/-- `__grub_file_parse`: `/path` (no device) or `(device)path`; anything else
(including a missing closing parenthesis) fails. -/
def __grub_file_parse (value : String) : Option GrubFile :=
  match value.toList with
  | [] => none
  | c :: rest =>
    if c = '/' then some ⟨none, some value⟩
    else if c = '(' then
      match splitParen rest with
      | none => none
      | some (dev, path) => some ⟨some dev.asString, some path.asString⟩
    else none

/-- Render a possibly-NULL C string the way glibc's `%s` does. -/
def optStr (o : Option String) : String := o.getD "(null)"

/-- `__grub_file_join`: `path` or `(device)path`. -/
def __grub_file_join (device : Option String) (path : Option String) : String :=
  match device with
  | none => optStr path
  | some d => "(" ++ d ++ ")" ++ optStr path

/-- The `GRUB_EVENT_*` subtypes of a PCR 8 grub command event. -/
inductive GrubSubtype
  | command
  | commandLinux
  | commandInitrd
  | kernelCmdline
deriving DecidableEq

/-- The parsed `grub_command` event body.  The argv capture (split on
whitespace, capped at `GRUB_COMMAND_ARGV_MAX`) is not read by any rehash
rule and is omitted. -/
structure GrubCommandEvent where
  event_subtype : GrubSubtype
  string : String
  file : GrubFile
deriving DecidableEq

/-- `uapi_boot_entry_t`: the fields the grub rehash rules read. -/
structure UapiBootEntry where
  image_path : Option String
  initrd_path : Option String
  options : Option String
deriving DecidableEq

/-- `__tpm_event_grub_command_event_parse` on a NUL-terminated PCR 8 IPL
body: `keyword: rest`, keyword over `[A-Za-z_]` followed by `": "`.
`grub_cmd linux …` / `grub_cmd initrd …` parse the grub path after the first
space (that parse failing fails the event; no argument leaves the file
unset); plain `grub_cmd` keeps only the string; `kernel_cmdline` must parse
its whole argument as a grub path. -/
def __tpm_event_grub_command_event_parse (value : String) : Option GrubCommandEvent :=
  let l := value.toList
  let wl := (l.takeWhile (fun c => c.isAlpha || c = '_')).length
  if l.getD wl (Char.ofNat 0) = ':' ∧ l.getD (wl + 1) (Char.ofNat 0) = ' ' then
    let keyword := (l.take wl).asString
    let arg := (l.drop (wl + 2)).asString
    if keyword = "grub_cmd" ∧ starts_with "linux" arg then
      let awl := (arg.toList.takeWhile (fun c => c ≠ ' ')).length
      if arg.toList.getD awl (Char.ofNat 0) = ' ' then
        match __grub_file_parse ((arg.toList.drop (awl + 1)).asString) with
        | none => none
        | some f => some ⟨GrubSubtype.commandLinux, arg, f⟩
      else some ⟨GrubSubtype.commandLinux, arg, ⟨none, none⟩⟩
    else if keyword = "grub_cmd" ∧ starts_with "initrd" arg then
      let awl := (arg.toList.takeWhile (fun c => c ≠ ' ')).length
      if arg.toList.getD awl (Char.ofNat 0) = ' ' then
        match __grub_file_parse ((arg.toList.drop (awl + 1)).asString) with
        | none => none
        | some f => some ⟨GrubSubtype.commandInitrd, arg, f⟩
      else some ⟨GrubSubtype.commandInitrd, arg, ⟨none, none⟩⟩
    else if keyword = "grub_cmd" then some ⟨GrubSubtype.command, arg, ⟨none, none⟩⟩
    else if keyword = "kernel_cmdline" then
      match __grub_file_parse arg with
      | none => none
      | some f => some ⟨GrubSubtype.kernelCmdline, arg, f⟩
    else none
  else none

/-- `__tpm_event_grub_command_rehash`.  `H` models `digest_compute` under the
context's algorithm (the digest registry is a collaborator): the digest of
the string's bytes.  `boot_entry` is `ctx->boot_entry`. -/
def __tpm_event_grub_command_rehash (H : String → List Nat)
    (boot_entry : Option UapiBootEntry) (parsed : GrubCommandEvent) : List Nat :=
  match parsed.event_subtype with
  | GrubSubtype.command => H parsed.string
  | GrubSubtype.commandLinux =>
    match boot_entry, parsed.file.path with
    | some be, some _ =>
        H ("linux " ++ __grub_file_join parsed.file.device be.image_path ++ " " ++
            optStr be.options)
    | _, _ => H parsed.string
  | GrubSubtype.commandInitrd =>
    match boot_entry, parsed.file.path with
    | some be, some _ =>
        H ("initrd " ++ __grub_file_join parsed.file.device be.initrd_path)
    | _, _ => H parsed.string
  | GrubSubtype.kernelCmdline =>
    match boot_entry, parsed.file.path with
    | some be, some _ =>
        H (__grub_file_join parsed.file.device be.image_path ++ " " ++ optStr be.options)
    | _, _ => H parsed.string

/-! ### pcr-policy.c: sealing control flow (claim C5) -/

/-- The operations `esys_seal_secret` can perform, in program order. -/
inductive SealAction
  | readSecretFile
  | createPrimary
  | create
  | writeSealed
deriving DecidableEq

/-- `sizeof(((TPM2B_SENSITIVE_DATA *)0)->buffer)` = `TPM2_MAX_SYM_DATA` = 128
bytes. -/
def MAX_SENSITIVE_SIZE : Nat := 128

/-- `read_secret`: NULL when the input file is unreadable or its data
exceeds the 128-byte sensitive buffer. -/
def read_secret (contents : Option (List Nat)) : Option (List Nat) :=
  match contents with
  | none => none
  | some bs => if MAX_SENSITIVE_SIZE < bs.length then none else some bs

/-- `esys_seal_secret`: control-flow model.  The TSS2 calls are external
collaborators whose outcomes are `primary_ok` (`Esys_CreatePrimary`) and
`create_ok` (`Esys_Create`); `write_ok` is the outcome of the platform's
`write_sealed_secret`.  The result is the returned boolean together with
the ordered trace of operations attempted. -/
def esys_seal_secret (contents : Option (List Nat))
    (primary_ok create_ok write_ok : Bool) : Bool × List SealAction :=
  match read_secret contents with
  | none => (false, [SealAction.readSecretFile])
  | some _ =>
    if primary_ok then
      if create_ok then
        (write_ok, [SealAction.readSecretFile, SealAction.createPrimary,
                    SealAction.create, SealAction.writeSealed])
      else (false, [SealAction.readSecretFile, SealAction.createPrimary, SealAction.create])
    else (false, [SealAction.readSecretFile, SealAction.createPrimary])

/-- `pcr_seal_secret`: `__pcr_policy_make` and `pcr_bank_to_selection` run
first (outcomes `policy_ok`, `sel_ok`); a failure of either returns before
any TPM or output-file operation. -/
def pcr_seal_secret (policy_ok sel_ok : Bool) (contents : Option (List Nat))
    (primary_ok create_ok write_ok : Bool) : Bool × List SealAction :=
  if policy_ok then
    if sel_ok then esys_seal_secret contents primary_ok create_ok write_ok
    else (false, [])
  else (false, [])

/-! ### Theorems -/

theorem readU32le_u32le (x : Nat) (hx : x < 4294967296) (r : List Nat) :
    readU32le (u32le x ++ r) = some (x, r) := by
  simp only [u32le, List.cons_append, List.nil_append, readU32le]
  congr 1
  congr 1
  omega

theorem readU16le_u16le (x : Nat) (hx : x < 65536) (r : List Nat) :
    readU16le (u16le x ++ r) = some (x, r) := by
  simp only [u16le, List.cons_append, List.nil_append, readU16le]
  congr 1
  congr 1
  omega

theorem takeExact_append (a r : List Nat) :
    takeExact a.length (a ++ r) = some (a, r) := by
  simp [takeExact, List.take_left, List.drop_left]

theorem takeExact_append_of_len {n : Nat} (a r : List Nat) (h : a.length = n) :
    takeExact n (a ++ r) = some (a, r) := by
  subst h; exact takeExact_append a r

theorem takeExact_length {n : Nat} {s a r : List Nat}
    (h : takeExact n s = some (a, r)) : r.length = s.length - n ∧ n ≤ s.length := by
  unfold takeExact at h
  by_cases hle : n ≤ s.length
  · simp [hle] at h
    obtain ⟨h1, h2⟩ := h
    subst h2
    exact ⟨by simp, hle⟩
  · simp [hle] at h

theorem readU32le_length {s : List Nat} {x : Nat} {r : List Nat}
    (h : readU32le s = some (x, r)) : r.length + 4 = s.length := by
  match s, h with
  | b0 :: b1 :: b2 :: b3 :: rest, h =>
    simp [readU32le] at h
    obtain ⟨-, h2⟩ := h
    subst h2
    simp

theorem event_log_read_digest_length {st : ReaderState} {id : Nat} {s : List Nat}
    {d : Nat × List Nat} {r : List Nat}
    (h : event_log_read_digest st id s = some (d, r)) : r.length ≤ s.length := by
  unfold event_log_read_digest at h
  cases ha : event_log_get_algo_info st id with
  | none => simp [ha] at h
  | some sz =>
    simp only [ha] at h
    cases ht : takeExact sz s with
    | none => simp [ht] at h
    | some p =>
      obtain ⟨d2, r2⟩ := p
      simp only [ht] at h
      simp only [Option.some.injEq, Prod.mk.injEq] at h
      obtain ⟨-, h2⟩ := h
      subst h2
      have := takeExact_length ht
      omega

theorem read_digests_v2_length {st : ReaderState} :
    ∀ {n : Nat} {s : List Nat} {ds : List (Nat × List Nat)} {r : List Nat},
    read_digests_v2 st n s = some (ds, r) → r.length ≤ s.length := by
  intro n
  induction n with
  | zero =>
    intro s ds r h
    simp only [read_digests_v2, Option.some.injEq, Prod.mk.injEq] at h
    obtain ⟨-, h2⟩ := h
    subst h2
    exact le_refl _
  | succ n ih =>
    intro s ds r h
    unfold read_digests_v2 at h
    cases h1 : readU16le s with
    | none => simp [h1] at h
    | some p1 =>
      obtain ⟨id, s1⟩ := p1
      simp only [h1] at h
      cases h2 : event_log_read_digest st id s1 with
      | none => simp [h2] at h
      | some p2 =>
        obtain ⟨d, s2⟩ := p2
        simp only [h2] at h
        cases h3 : read_digests_v2 st n s2 with
        | none => simp [h3] at h
        | some p3 =>
          obtain ⟨ds3, s3⟩ := p3
          simp only [h3] at h
          simp only [Option.some.injEq, Prod.mk.injEq] at h
          obtain ⟨-, hr⟩ := h
          subst hr
          have l3 := ih h3
          have l2 := event_log_read_digest_length h2
          have l1 : s1.length + 2 = s.length := by
            match s, h1 with
            | b0 :: b1 :: rest, h1 =>
              simp [readU16le] at h1
              obtain ⟨-, h1b⟩ := h1
              subst h1b
              simp
          omega

theorem event_log_read_pcrs_length {st : ReaderState} {s : List Nat}
    {ds : List (Nat × List Nat)} {r : List Nat}
    (h : (if st.tpm_version = 1 then event_log_read_pcrs_tpm1 st s
          else event_log_read_pcrs_tpm2 st s) = some (ds, r)) : r.length ≤ s.length := by
  by_cases hv : st.tpm_version = 1
  · rw [if_pos hv] at h
    unfold event_log_read_pcrs_tpm1 at h
    cases h1 : event_log_read_digest st TPM2_ALG_SHA1 s with
    | none => simp [h1] at h
    | some p =>
      obtain ⟨d, r1⟩ := p
      simp only [h1] at h
      simp only [Option.some.injEq, Prod.mk.injEq] at h
      obtain ⟨-, hr⟩ := h
      subst hr
      exact event_log_read_digest_length h1
  · rw [if_neg hv] at h
    unfold event_log_read_pcrs_tpm2 at h
    cases h1 : readU32le s with
    | none => simp [h1] at h
    | some p =>
      obtain ⟨count, s1⟩ := p
      simp only [h1] at h
      by_cases hc : 32 < count
      · rw [if_pos hc] at h
        exact Option.noConfusion h
      · rw [if_neg hc] at h
        have := read_digests_v2_length h
        have := readU32le_length h1
        omega

theorem readRawRecordBody_length {st : ReaderState} {s : List Nat}
    {r : RawRecord} {s5 : List Nat}
    (h : readRawRecordBody st s = some (r, s5)) : s5.length + 12 ≤ s.length := by
  unfold readRawRecordBody at h
  cases h1 : readU32le s with
  | none => simp [h1] at h
  | some p1 =>
    obtain ⟨pcr, s1⟩ := p1
    simp only [h1] at h
    cases h2 : readU32le s1 with
    | none => simp [h2] at h
    | some p2 =>
      obtain ⟨ty, s2⟩ := p2
      simp only [h2] at h
      cases h3 : (if st.tpm_version = 1 then event_log_read_pcrs_tpm1 st s2
                  else event_log_read_pcrs_tpm2 st s2) with
      | none => simp [h3] at h
      | some p3 =>
        obtain ⟨digs, s3⟩ := p3
        simp only [h3] at h
        cases h4 : readU32le s3 with
        | none => simp [h4] at h
        | some p4 =>
          obtain ⟨esz, s4⟩ := p4
          simp only [h4] at h
          by_cases ho : 1048576 < esz
          · rw [if_pos ho] at h
            exact Option.noConfusion h
          · rw [if_neg ho] at h
            cases h5 : takeExact esz s4 with
            | none => simp [h5] at h
            | some p5 =>
              obtain ⟨body, s5b⟩ := p5
              simp only [h5] at h
              simp only [Option.some.injEq, Prod.mk.injEq] at h
              obtain ⟨-, hr⟩ := h
              subst hr
              have l1 := readU32le_length h1
              have l2 := readU32le_length h2
              have l3 := event_log_read_pcrs_length h3
              have l4 := readU32le_length h4
              have l5 := takeExact_length h5
              omega

theorem readRawRecord_some_length {st : ReaderState} {s : List Nat}
    {r : RawRecord} {s5 : List Nat}
    (h : readRawRecord st s = some (some (r, s5))) : s5.length < s.length := by
  unfold readRawRecord at h
  cases s with
  | nil => simp at h
  | cons b rest =>
    cases hb : readRawRecordBody st (b :: rest) with
    | none => simp [hb] at h
    | some rs =>
      simp only [hb] at h
      simp only [Option.some.injEq] at h
      rw [h] at hb
      have := readRawRecordBody_length hb
      omega

theorem event_log_read_next_go_congr :
    ∀ (f : Nat) {f' : Nat} (st : ReaderState) (s : List Nat),
      s.length < f → s.length < f' →
      event_log_read_next_go f st s = event_log_read_next_go f' st s := by
  intro f
  induction f with
  | zero => intro f' st s h h'; omega
  | succ f ih =>
    intro f' st s h h'
    cases f' with
    | zero => omega
    | succ f2 =>
      simp only [event_log_read_next_go]
      cases hrr : readRawRecord st s with
      | none => rfl
      | some o =>
        cases o with
        | none => rfl
        | some rs =>
          obtain ⟨r, s5⟩ := rs
          have hlt : s5.length < s.length := readRawRecord_some_length hrr
          dsimp only
          by_cases hc : r.event_type = TPM2_EVENT_NO_ACTION ∧ r.pcr_index = 0 ∧
              st.event_count = 0 ∧ 16 ≤ r.event_data.length
          · rw [if_pos hc, if_pos hc]
            by_cases hs : r.event_data.take 16 = specIdSignature
            · rw [if_pos hs, if_pos hs]
              cases __tpm_event_parse_tcg2_info r.event_data with
              | none => rfl
              | some info => exact ih _ _ (by omega) (by omega)
            · rw [if_neg hs, if_neg hs]
              by_cases hl : r.event_data.take 16 = startupLocalitySignature ∧
                  r.event_data.length = 17
              · rw [if_pos hl, if_pos hl]
                exact ih _ _ (by omega) (by omega)
              · rw [if_neg hl, if_neg hl]
          · rw [if_neg hc, if_neg hc]

/-- The unfolding equation of `event_log_read_next` in terms of itself: one
record is read and either consumed (header, locality) or delivered. -/
theorem event_log_read_next_eq (st : ReaderState) (s : List Nat) :
    event_log_read_next st s =
      match readRawRecord st s with
      | none => none
      | some none => some none
      | some (some (r, s5)) =>
        if r.event_type = TPM2_EVENT_NO_ACTION ∧ r.pcr_index = 0 ∧ st.event_count = 0 ∧
            16 ≤ r.event_data.length then
          if r.event_data.take 16 = specIdSignature then
            match __tpm_event_parse_tcg2_info r.event_data with
            | none => none
            | some info =>
              event_log_read_next
                { st with tpm_version := info.spec_version_major, tcg2_info := info } s5
          else if r.event_data.take 16 = startupLocalitySignature ∧ r.event_data.length = 17 then
            event_log_read_next { st with pcr0_locality := some (r.event_data.getD 16 0) } s5
          else
            some (some (⟨r.pcr_index, r.event_type, r.digests, r.event_data, st.event_count⟩,
              { st with event_count := st.event_count + 1 }, s5))
        else
          some (some (⟨r.pcr_index, r.event_type, r.digests, r.event_data, st.event_count⟩,
            { st with event_count := st.event_count + 1 }, s5)) := by
  unfold event_log_read_next
  conv_lhs => rw [event_log_read_next_go]
  cases hrr : readRawRecord st s with
  | none => rfl
  | some o =>
    cases o with
    | none => rfl
    | some rs =>
      obtain ⟨r, s5⟩ := rs
      have hlt : s5.length < s.length := readRawRecord_some_length hrr
      dsimp only
      by_cases hc : r.event_type = TPM2_EVENT_NO_ACTION ∧ r.pcr_index = 0 ∧
          st.event_count = 0 ∧ 16 ≤ r.event_data.length
      · rw [if_pos hc, if_pos hc]
        by_cases hs : r.event_data.take 16 = specIdSignature
        · rw [if_pos hs, if_pos hs]
          cases __tpm_event_parse_tcg2_info r.event_data with
          | none => rfl
          | some info => exact event_log_read_next_go_congr _ _ _ (by omega) (by omega)
        · rw [if_neg hs, if_neg hs]
          by_cases hl : r.event_data.take 16 = startupLocalitySignature ∧
              r.event_data.length = 17
          · rw [if_pos hl, if_pos hl]
            exact event_log_read_next_go_congr _ _ _ (by omega) (by omega)
          · rw [if_neg hl, if_neg hl]
      · rw [if_neg hc, if_neg hc]

theorem entry_pol_matches_update (e : SdbPolicyEntry) (fp : String)
    (pc : List Nat) (pk sg : String) :
    entry_pol_matches ⟨e.pol, some pc, some pk, some sg⟩ fp = entry_pol_matches e fp := by
  cases e with
  | mk p q r s => rfl

theorem entry_pol_matches_fresh (fp : String) (pc : List Nat) (pk sg : String) :
    entry_pol_matches ⟨some fp, some pc, some pk, some sg⟩ fp = true := by
  simp [entry_pol_matches, strcasecmp_eq]

theorem bank_add_entry_idem (fp : String) (pc : List Nat) (pk sg : String)
    (b : List SdbPolicyEntry) :
    bank_add_entry fp pc pk sg (bank_add_entry fp pc pk sg b) =
      bank_add_entry fp pc pk sg b := by
  induction b with
  | nil =>
    simp [bank_add_entry, entry_pol_matches_fresh]
  | cons e rest ih =>
    by_cases h : entry_pol_matches e fp
    · simp [bank_add_entry, h, entry_pol_matches_update]
    · simp only [bank_add_entry, h, Bool.false_eq_true, if_false]
      simp [bank_add_entry, h, ih]

theorem doc_add_entry_idem (algo fp : String) (pc : List Nat) (pk sg : String)
    (doc : List (String × List SdbPolicyEntry)) :
    doc_add_entry algo fp pc pk sg (doc_add_entry algo fp pc pk sg doc) =
      doc_add_entry algo fp pc pk sg doc := by
  induction doc with
  | nil => simp [doc_add_entry, bank_add_entry_idem]
  | cons kb rest ih =>
    obtain ⟨k, b⟩ := kb
    by_cases h : k = algo
    · simp [doc_add_entry, h, bank_add_entry_idem]
    · simp only [doc_add_entry, h, if_false]
      simp [doc_add_entry, h, ih]

theorem bank_add_entry_count (fp : String) (pc : List Nat) (pk sg : String)
    (b : List SdbPolicyEntry)
    (h : b.countP (fun e => entry_pol_matches e fp) = 0) :
    (bank_add_entry fp pc pk sg b).countP (fun e => entry_pol_matches e fp) = 1 := by
  induction b with
  | nil => simp [bank_add_entry, List.countP, List.countP.go, entry_pol_matches_fresh]
  | cons e rest ih =>
    rw [List.countP_cons] at h
    by_cases he : entry_pol_matches e fp
    · simp [he] at h
    · have hrest : rest.countP (fun e => entry_pol_matches e fp) = 0 := by
        simpa [he] using h
      rw [bank_add_entry]
      simp only [he, Bool.false_eq_true, if_false]
      rw [List.countP_cons]
      simp [he, ih hrest]

theorem get_token_id_eq_amended (et os img mid : Option String) (ex : String → Bool) :
    get_token_id et os img mid ex = get_token_id_amended et os img mid ex := by
  cases mid with
  | none => rfl
  | some m =>
    cases et with
    | some t => rfl
    | none =>
      by_cases hos : exists_efi_dir ex os
      · have hsome : os.isSome := by
          cases os with
          | none => simp [exists_efi_dir] at hos
          | some o => rfl
        cases os with
        | none => simp [exists_efi_dir] at hos
        | some o => simp [get_token_id, get_token_id_amended, hos]
      · by_cases himg : exists_efi_dir ex img
        · cases os with
          | none => simp [get_token_id, get_token_id_amended, hos, himg]
          | some o => simp [get_token_id, get_token_id_amended, hos, himg]
        · simp [get_token_id, get_token_id_amended, hos, himg]

/-- Claim C6: the claim asserts `vercmp("1.0", "1.0~rc1") > 0` (a tilde
suffix sorts older, per the UAPI version-format specification the source
cites).  The source checks end-of-string *before* the tilde rule, so when
one operand is exhausted the comparison returns `cmp('\0', '~') < 0`:
`vercmp("1.0", "1.0~rc1") = -126 < 0`, refuting the claim.  The other two
quoted examples do hold. -/
theorem claim_C6_vercmp_eval :
    vercmp "1.0" "1.0~rc1" = -126 ∧ vercmp "1.0" "1.0~rc1" < 0 ∧
    vercmp "1.0" "1.0.1" < 0 ∧ vercmp "1.0" "1.0-1" < 0 := by
  refine ⟨by decide, by decide, by decide, by decide⟩

/-- Claim C7, counterexample: with `/etc/kernel/entry-token` = "tok" whose
directory does not exist and `/etc/os-release:ID` = "osid" whose directory
exists, the code returns "tok" while the claimed rule returns "osid"; with
no entry-token, ID = "osid" (directory absent) and IMAGE_ID = "img"
(directory present), the code returns "osid" (the source assigns `id`, not
`image_id`) while the claimed rule returns "img"; and the entry filter
retains "tok.backup", which is not a `.conf` file. -/
theorem claim_C7_counterexample :
    get_token_id (some "tok") (some "osid") none (some "mach") (fun s => s == "osid")
        = some "tok" ∧
    get_token_id_claimed (some "tok") (some "osid") none (some "mach") (fun s => s == "osid")
        = some "osid" ∧
    get_token_id none (some "osid") (some "img") (some "mach") (fun s => s == "img")
        = some "osid" ∧
    get_token_id_claimed none (some "osid") (some "img") (some "mach") (fun s => s == "img")
        = some "img" ∧
    sdb_entry_keeps "tok" "tok.backup" = true ∧
    sdb_entry_keeps_claimed "tok" "tok.backup" = false := by
  refine ⟨by decide, by decide, by decide, by decide, by decide, by decide⟩

/-- Claim C7, amended: `get_token_id` requires a readable `/etc/machine-id`;
a readable `/etc/kernel/entry-token` is used unconditionally (no directory
check); otherwise ID is chosen when `/boot/efi/<ID>/` exists, then ID again
(not IMAGE_ID) when ID is present and `/boot/efi/<IMAGE_ID>/` exists, then
machine-id when its directory exists.  `sdb_get_entry_list` retains every
directory entry whose name starts with the token — in particular every
`.conf` file starting with the token, but without enforcing the `.conf`
suffix. -/
theorem claim_C7_amended :
    (∀ (et os img mid : Option String) (ex : String → Bool),
      get_token_id et os img mid ex = get_token_id_amended et os img mid ex) ∧
    (∀ token name : String,
      sdb_entry_keeps_claimed token name = true → sdb_entry_keeps token name = true) :=
  ⟨get_token_id_eq_amended, by
    intro token name h
    simp only [sdb_entry_keeps_claimed, Bool.and_eq_true] at h
    simpa [sdb_entry_keeps] using h.1⟩

/-- Claim C7, witness for the amended theorem at concrete inputs. -/
theorem claim_C7_amended_witness :
    get_token_id none (some "osid") (some "img") (some "mach") (fun s => s == "img")
      = get_token_id_amended none (some "osid") (some "img") (some "mach") (fun s => s == "img") ∧
    (sdb_entry_keeps_claimed "tok" "tok-1.conf" = true ∧
     sdb_entry_keeps "tok" "tok-1.conf" = true) :=
  ⟨claim_C7_amended.1 none (some "osid") (some "img") (some "mach") (fun s => s == "img"),
   by decide, claim_C7_amended.2 "tok" "tok-1.conf" (by decide)⟩

/-- Claim C8: adding the same `(algo, pol, pcrs, pkfp, sig)` tuple to a
signed-policy document twice is idempotent — the second addition finds the
entry the first one created (matched case-insensitively on the hex of
`pol`) and overwrites its members with identical values — and on a bank
with no entry for that policy the result holds exactly one matching
entry. -/
theorem claim_C8_upsert_idempotent :
    (∀ (doc : List (String × List SdbPolicyEntry)) (algo : String) (mask : Nat)
       (fngp pol sg : List Nat) (hexF b64F : List Nat → String),
      sdb_policy_file_add_entry
          (sdb_policy_file_add_entry doc algo mask fngp pol sg hexF b64F)
          algo mask fngp pol sg hexF b64F
        = sdb_policy_file_add_entry doc algo mask fngp pol sg hexF b64F) ∧
    (∀ (b : List SdbPolicyEntry) (fp : String) (pc : List Nat) (pk sg : String),
      b.countP (fun e => entry_pol_matches e fp) = 0 →
      (bank_add_entry fp pc pk sg b).countP (fun e => entry_pol_matches e fp) = 1) :=
  ⟨fun doc algo mask fngp pol sg hexF b64F =>
      doc_add_entry_idem algo (hexF pol) (pcrs_of_mask mask) (hexF fngp) (b64F sg) doc,
   fun b fp pc pk sg h => bank_add_entry_count fp pc pk sg b h⟩

/-- Claim C8, witness at concrete inputs. -/
theorem claim_C8_upsert_idempotent_witness :
    sdb_policy_file_add_entry
        (sdb_policy_file_add_entry [] "sha256" 5 [1, 2] [3, 4] [5] (fun _ => "dead") (fun _ => "c2ln"))
        "sha256" 5 [1, 2] [3, 4] [5] (fun _ => "dead") (fun _ => "c2ln")
      = sdb_policy_file_add_entry [] "sha256" 5 [1, 2] [3, 4] [5] (fun _ => "dead") (fun _ => "c2ln") ∧
    (([] : List SdbPolicyEntry).countP (fun e => entry_pol_matches e "dead") = 0 ∧
     (bank_add_entry "dead" [1, 3] "aa" "bb" []).countP (fun e => entry_pol_matches e "dead") = 1) :=
  ⟨claim_C8_upsert_idempotent.1 [] "sha256" 5 [1, 2] [3, 4] [5] (fun _ => "dead") (fun _ => "c2ln"),
   by decide,
   claim_C8_upsert_idempotent.2 [] "dead" [1, 3] "aa" "bb" (by decide)⟩

/-- Claim C10: `read_entry`'s value extraction is *not* bounds-safe.  On the
recognized-key line "linux\n", which holds no space character, the scan
`while (line[++index] != ' ');` finds no space inside the NUL-terminated
line (`read_entry_first_space = none`): the C loop keeps reading past the
terminator into uninitialized memory and past the buffer.  On the line
"options " (key, one space, end of line), the value is empty and the
`size_t` expression `strlen(value) - 1` wraps to `2^64 - 1`, which is the
byte count handed to `strncpy`. -/
theorem claim_C10_read_entry_scan_unsafe :
    read_entry_key_dest "linux\n" = some "image" ∧
    read_entry_first_space ("linux\n".toList) = none ∧
    read_entry_key_dest "options " = some "options" ∧
    read_entry_copy_len ("options ".toList) = some (2 ^ 64 - 1) := by
  refine ⟨by decide, by decide, by decide, by decide⟩

theorem readU16le_length {s : List Nat} {x : Nat} {r : List Nat}
    (h : readU16le s = some (x, r)) : r.length + 2 = s.length := by
  match s, h with
  | b0 :: b1 :: rest, h =>
    simp [readU16le] at h
    obtain ⟨-, h2⟩ := h
    subst h2
    simp

theorem readU32le_short {t : List Nat} (h : t.length < 4) : readU32le t = none := by
  cases hr : readU32le t with
  | none => rfl
  | some p =>
    obtain ⟨x, r⟩ := p
    have := readU32le_length hr
    omega

theorem readU16le_short {t : List Nat} (h : t.length < 2) : readU16le t = none := by
  cases hr : readU16le t with
  | none => rfl
  | some p =>
    obtain ⟨x, r⟩ := p
    have := readU16le_length hr
    omega

theorem takeExact_short {n : Nat} {t : List Nat} (h : t.length < n) :
    takeExact n t = none := by
  unfold takeExact
  rw [if_neg (by omega)]

theorem readRawRecord_of_body {st : ReaderState} {s : List Nat} (hs : s ≠ [])
    {res : RawRecord × List Nat} (h : readRawRecordBody st s = some res) :
    readRawRecord st s = some (some res) := by
  unfold readRawRecord
  cases s with
  | nil => exact absurd rfl hs
  | cons a t => simp [h]

theorem readRawRecord_fatal {st : ReaderState} {s : List Nat} (hs : s ≠ [])
    (h : readRawRecordBody st s = none) : readRawRecord st s = none := by
  unfold readRawRecord
  cases s with
  | nil => exact absurd rfl hs
  | cons a t => simp [h]

theorem event_log_read_next_fatal {st : ReaderState} {s : List Nat}
    (h : readRawRecord st s = none) : event_log_read_next st s = none := by
  rw [event_log_read_next_eq, h]

theorem event_log_read_pcrs_tpm1_append (st : ReaderState) {dig : List Nat}
    (hdig : dig.length = 20) (r : List Nat) :
    event_log_read_pcrs_tpm1 st (dig ++ r) = some ([(TPM2_ALG_SHA1, dig)], r) := by
  have hga : event_log_get_algo_info st TPM2_ALG_SHA1 = some 20 := rfl
  simp only [event_log_read_pcrs_tpm1, event_log_read_digest, hga,
    takeExact_append_of_len dig r hdig]

theorem read_digests_v2_one (st : ReaderState) {aid sz : Nat}
    (ha : event_log_get_algo_info st aid = some sz) (haid : aid < 65536)
    {dig : List Nat} (hdig : dig.length = sz) (r : List Nat) :
    read_digests_v2 st 1 (u16le aid ++ (dig ++ r)) = some ([(aid, dig)], r) := by
  simp only [read_digests_v2, readU16le_u16le aid haid, event_log_read_digest, ha,
    takeExact_append_of_len dig r hdig]

theorem event_log_read_pcrs_tpm2_one (st : ReaderState) {aid sz : Nat}
    (ha : event_log_get_algo_info st aid = some sz) (haid : aid < 65536)
    {dig : List Nat} (hdig : dig.length = sz) (r : List Nat) :
    event_log_read_pcrs_tpm2 st (u32le 1 ++ (u16le aid ++ (dig ++ r)))
      = some ([(aid, dig)], r) := by
  simp only [event_log_read_pcrs_tpm2, readU32le_u32le 1 (by omega)]
  rw [if_neg (by omega)]
  exact read_digests_v2_one st ha haid hdig r

theorem read_digests_v2_unknown (st : ReaderState) {aid : Nat}
    (ha : event_log_get_algo_info st aid = none) (haid : aid < 65536) (r : List Nat) :
    read_digests_v2 st 1 (u16le aid ++ r) = none := by
  simp only [read_digests_v2, readU16le_u16le aid haid, event_log_read_digest, ha]

theorem event_log_read_pcrs_tpm2_unknown (st : ReaderState) {aid : Nat}
    (ha : event_log_get_algo_info st aid = none) (haid : aid < 65536) (r : List Nat) :
    event_log_read_pcrs_tpm2 st (u32le 1 ++ (u16le aid ++ r)) = none := by
  simp only [event_log_read_pcrs_tpm2, readU32le_u32le 1 (by omega)]
  rw [if_neg (by omega)]
  exact read_digests_v2_unknown st ha haid r

theorem readRawRecordBody_v1 {st : ReaderState} (hv : st.tpm_version = 1)
    {pcr ty : Nat} (hpcr : pcr < 4294967296) (hty : ty < 4294967296)
    {dig : List Nat} (hdig : dig.length = 20)
    (body rest : List Nat) (hb : body.length ≤ 1048576) :
    readRawRecordBody st (mkRecordV1 pcr ty dig body ++ rest)
      = some (⟨pcr, ty, [(TPM2_ALG_SHA1, dig)], body⟩, rest) := by
  simp only [mkRecordV1, List.append_assoc]
  simp only [readRawRecordBody, readU32le_u32le pcr hpcr, readU32le_u32le ty hty, hv,
    if_pos, event_log_read_pcrs_tpm1_append st hdig,
    readU32le_u32le body.length (by omega)]
  rw [if_neg (by omega)]
  simp [takeExact_append]

theorem readRawRecordBody_v2_one {st : ReaderState} (hv : st.tpm_version ≠ 1)
    {pcr ty aid sz : Nat} (hpcr : pcr < 4294967296) (hty : ty < 4294967296)
    (haid : aid < 65536) (ha : event_log_get_algo_info st aid = some sz)
    {dig : List Nat} (hdig : dig.length = sz)
    (body rest : List Nat) (hb : body.length ≤ 1048576) :
    readRawRecordBody st (mkRecordV2 pcr ty aid dig body ++ rest)
      = some (⟨pcr, ty, [(aid, dig)], body⟩, rest) := by
  simp only [mkRecordV2, List.append_assoc]
  simp only [readRawRecordBody, readU32le_u32le pcr hpcr, readU32le_u32le ty hty,
    if_neg hv, event_log_read_pcrs_tpm2_one st ha haid hdig,
    readU32le_u32le body.length (by omega)]
  rw [if_neg (by omega)]
  simp [takeExact_append]

theorem mkRecordV1_ne_nil (pcr ty : Nat) (dig body rest : List Nat) :
    mkRecordV1 pcr ty dig body ++ rest ≠ [] := by
  simp [mkRecordV1, u32le]

theorem mkRecordV2_ne_nil (pcr ty aid : Nat) (dig body rest : List Nat) :
    mkRecordV2 pcr ty aid dig body ++ rest ≠ [] := by
  simp [mkRecordV2, u32le]

theorem take_of_len_eq {α : Type} {n : Nat} {l1 : List α} (h : l1.length = n)
    (l2 : List α) : (l1 ++ l2).take n = l1 := by
  subst h
  exact List.take_left l1 l2

theorem getD_at_len {l : List Nat} {n : Nat} (h : l.length = n) (x : Nat) :
    (l ++ [x]).getD n 0 = x := by
  subst h
  induction l with
  | nil => rfl
  | cons a t ih =>
    simp only [List.cons_append, List.length_cons, List.getD_cons_succ]
    exact ih

/-- Claim C4, counterexample: the claim quantifies over a StartupLocality
record appearing anywhere in the log, but the code consumes it only while
`event_count == 0`.  In a log whose first record is an ordinary PCR 7 event
followed by the StartupLocality record, the second `event_log_read_next`
returns the StartupLocality record as an ordinary event, the reader records
no locality, and `event_log_get_locality(log, 0)` stays false. -/
theorem claim_C4_counterexample :
    event_log_read_next readerInit
        (mkRecordV1 7 4 (List.replicate 20 0) [] ++
          mkLocalityRecordV1 (List.replicate 20 0) 3)
      = some (some (⟨7, 4, [(TPM2_ALG_SHA1, List.replicate 20 0)], [], 0⟩,
          ⟨1, 1, tcg2InfoInit, none⟩, mkLocalityRecordV1 (List.replicate 20 0) 3)) ∧
    event_log_read_next ⟨1, 1, tcg2InfoInit, none⟩ (mkLocalityRecordV1 (List.replicate 20 0) 3)
      = some (some (⟨0, TPM2_EVENT_NO_ACTION, [(TPM2_ALG_SHA1, List.replicate 20 0)],
          startupLocalitySignature ++ [3], 1⟩, ⟨1, 2, tcg2InfoInit, none⟩, [])) ∧
    event_log_get_locality ⟨1, 2, tcg2InfoInit, none⟩ 0 = none := by
  refine ⟨by decide, by decide, by decide⟩

/-- Claim C4, amended: a `NO_ACTION` record in PCR 0 whose body is
"StartupLocality\0" plus one byte is consumed (not delivered) and its byte
recorded as `pcr0_locality` only while the reader has delivered no event
yet (`event_count == 0`); `event_log_get_locality(log, 0)` then yields the
recorded byte, while it returns false for every `pcr_index ≠ 0` and for
readers that recorded no locality.  A matching record appearing after the
first delivered event is returned as an ordinary measurement (see the
counterexample). -/
theorem claim_C4_startup_locality (st : ReaderState) (b : Nat) (dig rest : List Nat)
    (hv : st.tpm_version = 1) (hc : st.event_count = 0) (hdig : dig.length = 20) :
    (event_log_read_next st (mkLocalityRecordV1 dig b ++ rest)
        = event_log_read_next { st with pcr0_locality := some b } rest ∧
      event_log_get_locality { st with pcr0_locality := some b } 0 = some b) ∧
    (∀ (st2 : ReaderState) (pcr : Nat), pcr ≠ 0 → event_log_get_locality st2 pcr = none) ∧
    (∀ st2 : ReaderState, st2.pcr0_locality = none → event_log_get_locality st2 0 = none) := by
  have hsl : startupLocalitySignature.length = 16 := by decide
  have hlen : (startupLocalitySignature ++ [b]).length = 17 := by simp [hsl]
  have htake : (startupLocalitySignature ++ [b]).take 16 = startupLocalitySignature :=
    take_of_len_eq hsl [b]
  refine ⟨⟨?_, ?_⟩, ?_, ?_⟩
  · have hrb := @readRawRecordBody_v1 st hv 0 TPM2_EVENT_NO_ACTION
      (by decide) (by decide) dig hdig (startupLocalitySignature ++ [b]) rest (by omega)
    have hrr := readRawRecord_of_body
      (mkRecordV1_ne_nil 0 TPM2_EVENT_NO_ACTION dig (startupLocalitySignature ++ [b]) rest) hrb
    rw [show mkLocalityRecordV1 dig b
        = mkRecordV1 0 TPM2_EVENT_NO_ACTION dig (startupLocalitySignature ++ [b]) from rfl]
    rw [event_log_read_next_eq, hrr]
    dsimp only
    rw [if_pos ⟨rfl, rfl, hc, by omega⟩]
    rw [if_neg (by rw [htake]; decide)]
    rw [if_pos ⟨htake, hlen⟩]
    rw [getD_at_len hsl b]
  · rfl
  · intro st2 pcr hpcr
    simp [event_log_get_locality, hpcr]
  · intro st2 h2
    simp [event_log_get_locality, h2]

/-- Claim C4, witness for the amended theorem at a concrete log. -/
theorem claim_C4_startup_locality_witness :
    (event_log_read_next readerInit (mkLocalityRecordV1 (List.replicate 20 0) 3 ++ [])
        = event_log_read_next { readerInit with pcr0_locality := some 3 } [] ∧
      event_log_get_locality { readerInit with pcr0_locality := some 3 } 0 = some 3) ∧
    (∀ (st2 : ReaderState) (pcr : Nat), pcr ≠ 0 → event_log_get_locality st2 pcr = none) ∧
    (∀ st2 : ReaderState, st2.pcr0_locality = none → event_log_get_locality st2 0 = none) :=
  claim_C4_startup_locality readerInit 3 (List.replicate 20 0) [] rfl rfl (by decide)

/-- Claim C2: `event_log_read_next` is fatal when a record declares an event
size above 1 MiB; a clean EOF is accepted exactly at the leading
`pcr_index` field (empty remaining stream), while a short read at the pcr
index, event type, digest bytes, event size or body is fatal; and a v2
digest list referencing an algorithm that is neither built-in nor declared
in the Spec ID header's table is fatal. -/
theorem claim_C2_failure_modes :
    (∀ (st : ReaderState) (pcr ty esz : Nat) (dig tail : List Nat),
      st.tpm_version = 1 → pcr < 4294967296 → ty < 4294967296 → dig.length = 20 →
      1048576 < esz → esz < 4294967296 →
      event_log_read_next st (u32le pcr ++ (u32le ty ++ (dig ++ (u32le esz ++ tail))))
        = none) ∧
    (∀ st : ReaderState, event_log_read_next st [] = some none) ∧
    (∀ (st : ReaderState) (s : List Nat), s ≠ [] → s.length < 4 →
      event_log_read_next st s = none) ∧
    (∀ (st : ReaderState) (pcr : Nat) (t : List Nat), pcr < 4294967296 → t.length < 4 →
      event_log_read_next st (u32le pcr ++ t) = none) ∧
    (∀ (st : ReaderState) (pcr ty : Nat) (t : List Nat), st.tpm_version = 1 →
      pcr < 4294967296 → ty < 4294967296 → t.length < 20 →
      event_log_read_next st (u32le pcr ++ (u32le ty ++ t)) = none) ∧
    (∀ (st : ReaderState) (pcr ty : Nat) (dig t : List Nat), st.tpm_version = 1 →
      pcr < 4294967296 → ty < 4294967296 → dig.length = 20 → t.length < 4 →
      event_log_read_next st (u32le pcr ++ (u32le ty ++ (dig ++ t))) = none) ∧
    (∀ (st : ReaderState) (pcr ty esz : Nat) (dig t : List Nat), st.tpm_version = 1 →
      pcr < 4294967296 → ty < 4294967296 → dig.length = 20 → esz ≤ 1048576 →
      t.length < esz →
      event_log_read_next st (u32le pcr ++ (u32le ty ++ (dig ++ (u32le esz ++ t))))
        = none) ∧
    (∀ (st : ReaderState) (pcr ty aid : Nat) (t : List Nat), st.tpm_version ≠ 1 →
      pcr < 4294967296 → ty < 4294967296 → aid < 65536 →
      digest_by_tpm_alg aid = none →
      lookup_declared_algo st.tcg2_info.algorithms aid = none →
      event_log_read_next st (u32le pcr ++ (u32le ty ++ (u32le 1 ++ (u16le aid ++ t))))
        = none) := by
  refine ⟨?_, ?_, ?_, ?_, ?_, ?_, ?_, ?_⟩
  · intro st pcr ty esz dig tail hv hpcr hty hdig ho hesz
    apply event_log_read_next_fatal
    apply readRawRecord_fatal (by simp [u32le])
    simp only [readRawRecordBody, readU32le_u32le pcr hpcr, readU32le_u32le ty hty, hv,
      if_pos, event_log_read_pcrs_tpm1_append st hdig, readU32le_u32le esz hesz]
    rw [if_pos ho]
  · intro st
    rfl
  · intro st s hne hlen
    apply event_log_read_next_fatal
    apply readRawRecord_fatal hne
    simp only [readRawRecordBody, readU32le_short hlen]
  · intro st pcr t hpcr ht
    apply event_log_read_next_fatal
    apply readRawRecord_fatal (by simp [u32le])
    simp only [readRawRecordBody, readU32le_u32le pcr hpcr, readU32le_short ht]
  · intro st pcr ty t hv hpcr hty ht
    apply event_log_read_next_fatal
    apply readRawRecord_fatal (by simp [u32le])
    have hga : event_log_get_algo_info st TPM2_ALG_SHA1 = some 20 := rfl
    have hp : event_log_read_pcrs_tpm1 st t = none := by
      simp only [event_log_read_pcrs_tpm1, event_log_read_digest, hga, takeExact_short ht]
    simp only [readRawRecordBody, readU32le_u32le pcr hpcr, readU32le_u32le ty hty, hv,
      if_pos, hp]
  · intro st pcr ty dig t hv hpcr hty hdig ht
    apply event_log_read_next_fatal
    apply readRawRecord_fatal (by simp [u32le])
    simp only [readRawRecordBody, readU32le_u32le pcr hpcr, readU32le_u32le ty hty, hv,
      if_pos, event_log_read_pcrs_tpm1_append st hdig, readU32le_short ht]
  · intro st pcr ty esz dig t hv hpcr hty hdig hesz ht
    apply event_log_read_next_fatal
    apply readRawRecord_fatal (by simp [u32le])
    simp only [readRawRecordBody, readU32le_u32le pcr hpcr, readU32le_u32le ty hty, hv,
      if_pos, event_log_read_pcrs_tpm1_append st hdig,
      readU32le_u32le esz (by omega)]
    rw [if_neg (by omega)]
    simp only [takeExact_short ht]
  · intro st pcr ty aid t hv hpcr hty haid hbuiltin hdecl
    apply event_log_read_next_fatal
    apply readRawRecord_fatal (by simp [u32le])
    have ha : event_log_get_algo_info st aid = none := by
      simp only [event_log_get_algo_info, hbuiltin, hdecl]
    simp only [readRawRecordBody, readU32le_u32le pcr hpcr, readU32le_u32le ty hty,
      if_neg hv, event_log_read_pcrs_tpm2_unknown st ha haid t]

/-- Claim C2, witness: each failure mode at a concrete stream. -/
theorem claim_C2_failure_modes_witness :
    event_log_read_next readerInit
        (u32le 1 ++ (u32le 4 ++ (List.replicate 20 0 ++ (u32le 1048577 ++ [])))) = none ∧
    event_log_read_next readerInit [] = some none ∧
    event_log_read_next readerInit [9] = none ∧
    event_log_read_next readerInit (u32le 1 ++ [9]) = none ∧
    event_log_read_next readerInit (u32le 1 ++ (u32le 4 ++ [9])) = none ∧
    event_log_read_next readerInit
        (u32le 1 ++ (u32le 4 ++ (List.replicate 20 0 ++ [9]))) = none ∧
    event_log_read_next readerInit
        (u32le 1 ++ (u32le 4 ++ (List.replicate 20 0 ++ (u32le 5 ++ [9])))) = none ∧
    event_log_read_next ⟨2, 0, tcg2InfoInit, none⟩
        (u32le 1 ++ (u32le 4 ++ (u32le 1 ++ (u16le 68 ++ [])))) = none :=
  ⟨claim_C2_failure_modes.1 readerInit 1 4 1048577 (List.replicate 20 0) [] rfl
      (by decide) (by decide) (by decide) (by decide) (by decide),
   claim_C2_failure_modes.2.1 readerInit,
   claim_C2_failure_modes.2.2.1 readerInit [9] (by decide) (by decide),
   claim_C2_failure_modes.2.2.2.1 readerInit 1 [9] (by decide) (by decide),
   claim_C2_failure_modes.2.2.2.2.1 readerInit 1 4 [9] rfl (by decide) (by decide) (by decide),
   claim_C2_failure_modes.2.2.2.2.2.1 readerInit 1 4 (List.replicate 20 0) [9] rfl
      (by decide) (by decide) (by decide) (by decide),
   claim_C2_failure_modes.2.2.2.2.2.2.1 readerInit 1 4 5 (List.replicate 20 0) [9] rfl
      (by decide) (by decide) (by decide) (by decide) (by decide),
   claim_C2_failure_modes.2.2.2.2.2.2.2 ⟨2, 0, tcg2InfoInit, none⟩ 1 4 68 [] (by decide)
      (by decide) (by decide) (by decide) (by decide) (by decide)⟩

theorem drop_of_len_eq {α : Type} {n : Nat} {l1 : List α} (h : l1.length = n)
    (l2 : List α) : (l1 ++ l2).drop n = l2 := by
  subst h
  exact List.drop_left l1 l2

theorem algoTableBytes_length (tbl : List (Nat × Nat)) :
    (algoTableBytes tbl).length = 4 * tbl.length := by
  induction tbl with
  | nil => rfl
  | cons p ps ih =>
    simp only [algoTableBytes, List.length_append, u16le, List.length_cons,
      List.length_nil, ih, List.length_cons]
    omega

theorem mkSpecIdBody_length (h : SpecIdHeader) :
    (mkSpecIdBody h).length = 28 + 4 * h.algo_table.length := by
  have hsl : specIdSignature.length = 16 := by decide
  simp only [mkSpecIdBody, List.length_append, hsl, u32le, List.length_cons,
    List.length_nil, algoTableBytes_length]
  try omega

theorem parse_algo_loop_bytes (tbl : List (Nat × Nat)) (acc : List (Nat × Nat))
    (htbl : ∀ p ∈ tbl, p.1 < 65536 ∧ p.2 < 65536) :
    parse_algo_loop tbl.length (algoTableBytes tbl) acc = some (algoStoreFold acc tbl) := by
  induction tbl generalizing acc with
  | nil => rfl
  | cons p ps ih =>
    have hp := htbl p (List.mem_cons_self p ps)
    simp only [List.length_cons, algoTableBytes, List.append_assoc, parse_algo_loop,
      readU16le_u16le p.1 hp.1, readU16le_u16le p.2 hp.2]
    simp only [algoStoreFold]
    exact ih _ (fun q hq => htbl q (List.mem_cons_of_mem p hq))

theorem parse_tcg2_info_mk (h : SpecIdHeader) (hpc : h.platform_class < 4294967296)
    (hcnt : h.algo_table.length < 4294967296)
    (htbl : ∀ p ∈ h.algo_table, p.1 < 65536 ∧ p.2 < 65536) :
    __tpm_event_parse_tcg2_info (mkSpecIdBody h) = some (tcg2InfoOfHeader h) := by
  have hsl : specIdSignature.length = 16 := by decide
  simp only [mkSpecIdBody, List.append_assoc] at *
  simp only [__tpm_event_parse_tcg2_info, drop_of_len_eq hsl,
    readU32le_u32le h.platform_class hpc, List.cons_append, readU8,
    readU32le_u32le h.algo_table.length hcnt, List.nil_append,
    parse_algo_loop_bytes h.algo_table [] htbl]
  rfl

/-- Claim C1, counterexample to the claim as stated: the claim quantifies
over every "Spec ID Event03" header, but when the header declares
`spec_version_major = 1` the reader keeps decoding subsequent records with
the v1 single-SHA-1 layout, not the claimed version-2 layout.  Here the
header (major 1, empty algorithm table) is followed by a record whose
digest section is twenty `5` bytes: the reader returns it as a v1 event
with a SHA-1 digest, while decoding the same digest section with the
version-2 layout fails outright (the leading u32 count is 0x05050505). -/
theorem claim_C1_counterexample :
    event_log_read_next readerInit
        (mkHeaderRecord ⟨0, 0, 1, 0, 2, []⟩ (List.replicate 20 0) ++
          mkRecordV1 7 13 (List.replicate 20 5) [])
      = some (some (⟨7, 13, [(TPM2_ALG_SHA1, List.replicate 20 5)], [], 0⟩,
          ⟨1, 1, ⟨0, 0, 1, 0, 2, []⟩, none⟩, [])) ∧
    event_log_read_pcrs_tpm2 ⟨1, 0, ⟨0, 0, 1, 0, 2, []⟩, none⟩
        (List.replicate 20 5 ++ u32le 0) = none := by
  refine ⟨by decide, by decide⟩

/-- Claim C1, amended: for every log whose first record is a `NO_ACTION`
event in PCR 0 whose body begins with the 16-byte "Spec ID Event03"
signature, the reader parses the platform class, spec version, uintn size
and algorithm table, sets `tpm_version` to the header's
`spec_version_major`, and consumes the record: reading continues on the
following record with the updated state.  Provided the declared major
version is not 1, subsequent records are decoded with the version-2 digest
layout — a u32 count followed by pairs of a u16 algorithm id and that
algorithm's digest bytes — as the second conjunct shows for a record
carrying one digest of any built-in or header-declared algorithm. -/
theorem claim_C1_spec_id_header (h : SpecIdHeader) (dig rest : List Nat)
    (hdig : dig.length = 20)
    (hpc : h.platform_class < 4294967296)
    (hcnt28 : 28 + 4 * h.algo_table.length ≤ 1048576)
    (htbl : ∀ p ∈ h.algo_table, p.1 < 65536 ∧ p.2 < 65536)
    (hmaj1 : h.spec_version_major ≠ 1) :
    (event_log_read_next readerInit (mkHeaderRecord h dig ++ rest)
       = event_log_read_next ⟨h.spec_version_major, 0, tcg2InfoOfHeader h, none⟩ rest) ∧
    (∀ (pcr ty aid sz : Nat) (d2 body tail : List Nat),
      pcr ≠ 0 → pcr < 4294967296 → ty < 4294967296 → aid < 65536 →
      event_log_get_algo_info ⟨h.spec_version_major, 0, tcg2InfoOfHeader h, none⟩ aid
        = some sz →
      d2.length = sz → body.length ≤ 1048576 →
      event_log_read_next ⟨h.spec_version_major, 0, tcg2InfoOfHeader h, none⟩
          (mkRecordV2 pcr ty aid d2 body ++ tail)
        = some (some (⟨pcr, ty, [(aid, d2)], body, 0⟩,
            ⟨h.spec_version_major, 1, tcg2InfoOfHeader h, none⟩, tail))) := by
  have hsl : specIdSignature.length = 16 := by decide
  have hbl : (mkSpecIdBody h).length = 28 + 4 * h.algo_table.length := mkSpecIdBody_length h
  constructor
  · have hrb := @readRawRecordBody_v1 readerInit rfl 0 TPM2_EVENT_NO_ACTION
      (by decide) (by decide) dig hdig (mkSpecIdBody h) rest (by omega)
    have hrr := readRawRecord_of_body
      (mkRecordV1_ne_nil 0 TPM2_EVENT_NO_ACTION dig (mkSpecIdBody h) rest) hrb
    rw [show mkHeaderRecord h dig
        = mkRecordV1 0 TPM2_EVENT_NO_ACTION dig (mkSpecIdBody h) from rfl]
    rw [event_log_read_next_eq, hrr]
    dsimp only
    rw [if_pos ⟨rfl, rfl, rfl, by omega⟩]
    have htake : (mkSpecIdBody h).take 16 = specIdSignature := by
      simp only [mkSpecIdBody, List.append_assoc]
      exact take_of_len_eq hsl _
    rw [if_pos htake]
    rw [parse_tcg2_info_mk h hpc (by omega) htbl]
    rfl
  · intro pcr ty aid sz d2 body tail hpcr0 hpcr hty haid ha hd2 hbody
    have hrb := @readRawRecordBody_v2_one ⟨h.spec_version_major, 0, tcg2InfoOfHeader h, none⟩
      hmaj1 pcr ty aid sz hpcr hty haid ha d2 hd2 body tail hbody
    have hrr := readRawRecord_of_body
      (mkRecordV2_ne_nil pcr ty aid d2 body tail) hrb
    rw [event_log_read_next_eq, hrr]
    dsimp only
    rw [if_neg (fun hcon => hpcr0 hcon.2.1)]

/-- Claim C1, witness: a concrete header declaring major version 2 and one
non-built-in algorithm (id 5, size 9), followed by a v2 record carrying a
SHA-256 digest. -/
theorem claim_C1_spec_id_header_witness :
    (event_log_read_next readerInit
        (mkHeaderRecord ⟨1, 0, 2, 0, 2, [(5, 9)]⟩ (List.replicate 20 0) ++ [])
       = event_log_read_next ⟨2, 0, tcg2InfoOfHeader ⟨1, 0, 2, 0, 2, [(5, 9)]⟩, none⟩ []) ∧
    event_log_read_next ⟨2, 0, tcg2InfoOfHeader ⟨1, 0, 2, 0, 2, [(5, 9)]⟩, none⟩
        (mkRecordV2 7 4 11 (List.replicate 32 1) [] ++ [])
      = some (some (⟨7, 4, [(11, List.replicate 32 1)], [], 0⟩,
          ⟨2, 1, tcg2InfoOfHeader ⟨1, 0, 2, 0, 2, [(5, 9)]⟩, none⟩, [])) :=
  ⟨(claim_C1_spec_id_header ⟨1, 0, 2, 0, 2, [(5, 9)]⟩ (List.replicate 20 0) []
      (by decide) (by decide) (by decide) (by decide) (by decide)).1,
   (claim_C1_spec_id_header ⟨1, 0, 2, 0, 2, [(5, 9)]⟩ (List.replicate 20 0) []
      (by decide) (by decide) (by decide) (by decide) (by decide)).2
     7 4 11 32 (List.replicate 32 1) [] [] (by decide) (by decide) (by decide)
     (by decide) (by decide) (by decide) (by decide)⟩

/-- Claim C3: for the PCR 8 IPL body "kernel_cmdline: (hd0,gpt1)/vmlinuz-old
ro quiet" and a boot entry with image_path "/vmlinuz-new" and options
"ro debug", the rehash digests "(hd0,gpt1)/vmlinuz-new ro debug"; in
general, for the linux / initrd / kernel_cmdline subtypes, when the context
carries a boot entry and the event parsed a file path, the rebuilt command
substitutes the boot entry's image or initrd path and options and is
hashed, and otherwise (no boot entry, or no parsed path) the captured
command string is hashed.  `H` abstracts `digest_compute` under the
context's algorithm. -/
theorem claim_C3_grub_command_rehash :
    (∀ H : String → List Nat,
      (__tpm_event_grub_command_event_parse
          "kernel_cmdline: (hd0,gpt1)/vmlinuz-old ro quiet").map
        (__tpm_event_grub_command_rehash H
          (some ⟨some "/vmlinuz-new", some "/initrd-new", some "ro debug"⟩))
        = some (H "(hd0,gpt1)/vmlinuz-new ro debug")) ∧
    (∀ (H : String → List Nat) (p : GrubCommandEvent) (be : UapiBootEntry),
      (p.event_subtype = GrubSubtype.commandLinux → p.file.path ≠ none →
        __tpm_event_grub_command_rehash H (some be) p
          = H ("linux " ++ __grub_file_join p.file.device be.image_path ++ " " ++
              optStr be.options)) ∧
      (p.event_subtype = GrubSubtype.commandInitrd → p.file.path ≠ none →
        __tpm_event_grub_command_rehash H (some be) p
          = H ("initrd " ++ __grub_file_join p.file.device be.initrd_path)) ∧
      (p.event_subtype = GrubSubtype.kernelCmdline → p.file.path ≠ none →
        __tpm_event_grub_command_rehash H (some be) p
          = H (__grub_file_join p.file.device be.image_path ++ " " ++ optStr be.options)) ∧
      (p.file.path = none → __tpm_event_grub_command_rehash H (some be) p = H p.string) ∧
      (__tpm_event_grub_command_rehash H none p = H p.string)) := by
  constructor
  · intro H
    rfl
  · intro H p be
    refine ⟨?_, ?_, ?_, ?_, ?_⟩
    · intro h1 h2
      obtain ⟨pp, hpp⟩ := Option.ne_none_iff_exists'.mp h2
      simp [__tpm_event_grub_command_rehash, h1, hpp]
    · intro h1 h2
      obtain ⟨pp, hpp⟩ := Option.ne_none_iff_exists'.mp h2
      simp [__tpm_event_grub_command_rehash, h1, hpp]
    · intro h1 h2
      obtain ⟨pp, hpp⟩ := Option.ne_none_iff_exists'.mp h2
      simp [__tpm_event_grub_command_rehash, h1, hpp]
    · intro h1
      cases hsub : p.event_subtype <;>
        simp [__tpm_event_grub_command_rehash, hsub, h1]
    · cases hsub : p.event_subtype <;>
        simp [__tpm_event_grub_command_rehash, hsub]

/-- Claim C3, witness: a concrete hash function and a concrete linux-command
event with a parsed path. -/
theorem claim_C3_grub_command_rehash_witness :
    (__tpm_event_grub_command_event_parse
        "kernel_cmdline: (hd0,gpt1)/vmlinuz-old ro quiet").map
      (__tpm_event_grub_command_rehash (fun s => [s.length])
        (some ⟨some "/vmlinuz-new", some "/initrd-new", some "ro debug"⟩))
      = some [31] ∧
    __tpm_event_grub_command_rehash (fun s => [s.length])
        (some ⟨some "/vmlinuz-new", some "/initrd-new", some "ro debug"⟩)
        ⟨GrubSubtype.commandLinux, "linux /old ro", ⟨none, some "/old"⟩⟩
      = [("linux " ++ __grub_file_join none (some "/vmlinuz-new") ++ " " ++
          optStr (some "ro debug")).length] := by
  constructor
  · rw [(claim_C3_grub_command_rehash.1 (fun s => [s.length]))]
    decide
  · exact (claim_C3_grub_command_rehash.2 (fun s => [s.length])
      ⟨GrubSubtype.commandLinux, "linux /old ro", ⟨none, some "/old"⟩⟩
      ⟨some "/vmlinuz-new", some "/initrd-new", some "ro debug"⟩).1 rfl (by decide)

/-- Claim C5: the sealed-output write happens exactly when reading the
secret, `Esys_CreatePrimary` and `Esys_Create` have all succeeded — so an
unreadable input, a failed CreatePrimary or a failed Create produces no
output file; a secret larger than the 128-byte sensitive buffer fails
inside `read_secret`, before any TPM operation is attempted; and
`pcr_seal_secret` only reaches the write through `esys_seal_secret`. -/
theorem claim_C5_seal_ordering :
    (∀ (contents : Option (List Nat)) (p c w : Bool),
      SealAction.writeSealed ∈ (esys_seal_secret contents p c w).2 ↔
        read_secret contents ≠ none ∧ p = true ∧ c = true) ∧
    (∀ (bs : List Nat) (p c w : Bool), MAX_SENSITIVE_SIZE < bs.length →
      esys_seal_secret (some bs) p c w = (false, [SealAction.readSecretFile])) ∧
    (∀ (pol sel : Bool) (contents : Option (List Nat)) (p c w : Bool),
      SealAction.writeSealed ∈ (pcr_seal_secret pol sel contents p c w).2 →
        read_secret contents ≠ none ∧ p = true ∧ c = true) := by
  have main : ∀ (contents : Option (List Nat)) (p c w : Bool),
      SealAction.writeSealed ∈ (esys_seal_secret contents p c w).2 ↔
        read_secret contents ≠ none ∧ p = true ∧ c = true := by
    intro contents p c w
    cases hrs : read_secret contents with
    | none => simp [esys_seal_secret, hrs]
    | some bs =>
      cases p <;> cases c <;> simp [esys_seal_secret, hrs]
  refine ⟨main, ?_, ?_⟩
  · intro bs p c w h
    simp [esys_seal_secret, read_secret, if_pos h]
  · intro pol sel contents p c w h
    cases pol with
    | false => simp [pcr_seal_secret] at h
    | true =>
      cases sel with
      | false => simp [pcr_seal_secret] at h
      | true => exact (main contents p c w).mp (by simpa [pcr_seal_secret] using h)

/-- Claim C5, witness at concrete outcomes: a one-byte secret seals and
writes; a 129-byte secret fails before any TPM call. -/
theorem claim_C5_seal_ordering_witness :
    (SealAction.writeSealed ∈ (esys_seal_secret (some [7]) true true true).2 ↔
      read_secret (some [7]) ≠ none ∧ true = true ∧ true = true) ∧
    esys_seal_secret (some (List.replicate 129 0)) true true true
      = (false, [SealAction.readSecretFile]) ∧
    (read_secret (some [7]) ≠ none ∧ true = true ∧ true = true) :=
  ⟨claim_C5_seal_ordering.1 (some [7]) true true true,
   claim_C5_seal_ordering.2.1 (List.replicate 129 0) true true true
     (by simp [MAX_SENSITIVE_SIZE]),
   claim_C5_seal_ordering.2.2 true true (some [7]) true true true (by decide)⟩

/-- Claim C9: refuted.  The parse loop admits any `algo_id ≤ TPM2_ALG_LAST`
(= 68), but the reader's array has only `TPM_EVENT_LOG_MAX_ALGOS` (= 64)
slots.  A header declaring the non-built-in id 68 (`TPM2_ALG_ECB`, a cipher
mode, not a digest) passes the filter and the C code stores
`info->algorithms[68]`, four elements past the end of the array. -/
theorem claim_C9_algo_table_store_oob :
    tcg2_algo_store [] 68 16 = [(68, 16)] ∧
    (__tpm_event_parse_tcg2_info
        (specIdSignature ++ u32le 0 ++ [0, 2, 0, 2] ++ u32le 1 ++ u16le 68 ++ u16le 16)).map
      Tcg2Info.algorithms = some [(68, 16)] ∧
    68 ≤ TPM2_ALG_LAST ∧ TPM_EVENT_LOG_MAX_ALGOS ≤ 68 ∧
    digest_by_tpm_alg 68 = none := by
  refine ⟨by decide, by decide, by decide, by decide, by decide⟩

end PcrOracle
